import Mathlib

/-!
# ToDo-REST: the in-memory task store and its four HTTP handlers

A shallow embedding of `precode.go`.

* The package-level map `tasks` becomes an explicit `Store` value that every
  handler receives and, when it mutates the map, returns.
* `http.ResponseWriter` becomes a record of what the handler has done to the
  response so far (`ResponseWriter`); `finish` is what the server puts on the
  wire when the handler returns.
* Request and response payloads are taken up to JSON syntax: a payload is
  either not a JSON text at all, or it is the JSON value it denotes (`JSON`).
  `Unmarshal` and `Marshal` follow `encoding/json` for the one target type the
  program uses, `Task`, and for `map[string]Task`.
* Requests are served one at a time. A failed `res.Write` is only logged by the
  handlers and changes neither the map nor what the handler does next, so it is
  left out.
-/

namespace ToDoREST

/-! ## JSON values and payloads -/

/-- JSON values: the syntax tree of a JSON text. Object members keep the order
and the repetitions of the text; a number keeps its literal. -/
inductive JSON where
  | null : JSON
  | bool (b : Bool) : JSON
  | number (literal : String) : JSON
  | string (s : String) : JSON
  | array (elems : List JSON) : JSON
  | object (members : List (String × JSON)) : JSON

/-- The name `encoding/json` gives to the kind of a value in an
`UnmarshalTypeError`. -/
def JSON.valueName : JSON → String
  | .null => "null"
  | .bool _ => "bool"
  | .number _ => "number"
  | .string _ => "string"
  | .array _ => "array"
  | .object _ => "object"

/-- The bytes of a request payload, up to JSON syntax: `invalid err` for bytes
that are not one JSON text (`err` is the text of the `SyntaxError` that
`json.Unmarshal` reports for them), `valid v` for bytes that spell the value
`v`. -/
inductive Bytes where
  | invalid (syntaxError : String) : Bytes
  | valid (v : JSON) : Bytes

/-- A request body `req.Body`: reading it to the end either fails with an error
text or yields the bytes. -/
abbrev Body := Except String Bytes

/-- One `Write` to the response: a line of plain text, or the JSON text of a
value. -/
inductive Chunk where
  | text (s : String) : Chunk
  | json (v : JSON) : Chunk

/-! ## The data model -/

/-- The Go struct `Task`. A `[]string` is `none` when it is the nil slice and
`some xs` when it is a non-nil slice holding `xs`. -/
structure Task where
  ID : String
  Description : String
  Note : String
  Applications : Option (List String)
deriving DecidableEq, Repr

/-- The zero value of `Task` (`var newTask Task`). -/
def Task.zero : Task := ⟨"", "", "", none⟩

/-- A value of type `map[string]Task`, as the list of its entries. The order of
the entries carries no meaning; a Go map holds every key at most once
(`Store.WF`). -/
abbrev Store := List (String × Task)

/-- Every key occurs once. -/
def Store.WF (m : Store) : Prop := (m.map Prod.fst).Nodup

instance (m : Store) : Decidable (Store.WF m) :=
  inferInstanceAs (Decidable (m.map Prod.fst).Nodup)

/-- The keys of the map. -/
def Store.keys (m : Store) : List String := m.map Prod.fst

/-- Every entry sits under the id of its Task. -/
def Store.keyed (m : Store) : Prop := ∀ e ∈ m, e.1 = e.2.ID

instance (m : Store) : Decidable (Store.keyed m) :=
  inferInstanceAs (Decidable (∀ e ∈ m, e.1 = e.2.ID))

/-- The Go expression `m[k]` in its two-valued form `v, ok := m[k]`: `some v`
when `ok`, `none` otherwise. -/
def mapIndex : Store → String → Option Task
  | [], _ => none
  | (k', v) :: m, k => if k' = k then some v else mapIndex m k

/-- The Go statement `delete(m, k)`. -/
def mapDelete (m : Store) (k : String) : Store :=
  m.filter (fun e => decide (e.1 ≠ k))

/-- The Go statement `m[k] = v`: the entry under `k`, if any, is replaced. -/
def mapAssign (m : Store) (k : String) (v : Task) : Store :=
  mapDelete m k ++ [(k, v)]

/-- The Go expression `len(m)`. -/
def mapLen (m : Store) : Nat := m.length

/-- The package variable `tasks` as initialised at start-up. -/
def tasks : Store :=
  [ ("1",
      { ID := "1"
        Description := "Сделать финальное задание темы REST API"
        Note := "Если сегодня сделаю, то завтра будет свободный день. Ура!"
        Applications := some ["VS Code", "Terminal", "git"] }),
    ("2",
      { ID := "2"
        Description := "Протестировать финальное задание с помощью Postmen"
        Note := "Лучше это делать в процессе разработки, каждый раз, когда запускаешь сервер и проверяешь хендлер"
        Applications := some ["VS Code", "Terminal", "git", "Postman"] }) ]

/-! ## `net/http`: the response writer -/

def StatusOK : Nat := 200
def StatusCreated : Nat := 201
def StatusBadRequest : Nat := 400
def StatusInternalServerError : Nat := 500

/-- The state of an `http.ResponseWriter` while a handler runs: the header map
the handler edits, whether the status line has gone out, and if so the status,
the headers that went out with it and the body written since. -/
structure ResponseWriter where
  header : List (String × String)
  wroteHeader : Bool
  status : Nat
  sent : List (String × String)
  body : List Chunk

/-- The writer a handler is started with. -/
def ResponseWriter.new : ResponseWriter := ⟨[], false, StatusOK, [], []⟩

/-- The call `res.Header().Set(key, value)`. -/
def HeaderSet (w : ResponseWriter) (key value : String) : ResponseWriter :=
  { w with header := w.header.filter (fun e => decide (e.1 ≠ key)) ++ [(key, value)] }

/-- The call `res.WriteHeader(code)`: the first call fixes the status and the
headers; a later call is superfluous and changes nothing. -/
def WriteHeader (w : ResponseWriter) (code : Nat) : ResponseWriter :=
  if w.wroteHeader then w
  else { w with wroteHeader := true, status := code, sent := w.header }

/-- The call `res.Write(b)`: sends the status line with `StatusOK` when none has
gone out yet, then appends to the body. -/
def Write (w : ResponseWriter) (b : List Chunk) : ResponseWriter :=
  let w := if w.wroteHeader then w else WriteHeader w StatusOK
  { w with body := w.body ++ b }

/-- The function `http.Error(w, error, code)`: plain-text headers, the status,
and the message followed by a newline. -/
def Error (w : ResponseWriter) (error : String) (code : Nat) : ResponseWriter :=
  let w := HeaderSet w "Content-Type" "text/plain; charset=utf-8"
  let w := HeaderSet w "X-Content-Type-Options" "nosniff"
  let w := WriteHeader w code
  Write w [Chunk.text (error ++ "\n")]

/-- What the client receives. -/
structure Response where
  status : Nat
  header : List (String × String)
  body : List Chunk

/-- The response the server completes when the handler returns: a handler
that never wrote gets `StatusOK`, its headers and an empty body. -/
def finish (w : ResponseWriter) : Response :=
  if w.wroteHeader then ⟨w.status, w.sent, w.body⟩ else ⟨StatusOK, w.header, []⟩

/-- The value of a response header. -/
def headerGet : List (String × String) → String → Option String
  | [], _ => none
  | (k', v) :: h, k => if k' = k then some v else headerGet h k

/-! ## `encoding/json` for `Task` -/

/-- The four fields of `Task` with their `json` tags. -/
inductive field where
  | id : field
  | description : field
  | note : field
  | applications : field
deriving DecidableEq, Repr

/-- The `json` tag of a field. -/
def field.name : field → String
  | .id => "id"
  | .description => "description"
  | .note => "note"
  | .applications => "applications"

/-- All fields, in declaration order. -/
def fields : List field := [.id, .description, .note, .applications]

/-- The representative of a rune under simple case folding, as far as the
ASCII letters are concerned: a lower-case letter, the long s (U+017F) and the
Kelvin sign (U+212A) go to the upper-case letter; a rune that folds to no ASCII
letter is left alone (it can then equal no letter of a field name). -/
def foldRune (r : Char) : Char :=
  if 97 ≤ r.toNat ∧ r.toNat ≤ 122 then Char.ofNat (r.toNat - 32)
  else if r.toNat = 0x17F then Char.ofNat 83
  else if r.toNat = 0x212A then Char.ofNat 75
  else r

/-- The folded form of a name. -/
def foldName (name : String) : List Char := name.data.map foldRune

/-- The field an object key decodes into: the field with exactly that name,
or else the field with the same name up to case folding. -/
def fieldByName (key : String) : Option field :=
  match fields.find? (fun f => decide (f.name = key)) with
  | some f => some f
  | none => fields.find? (fun f => decide (foldName f.name = foldName key))

/-- The text of an `UnmarshalTypeError` raised inside the struct. -/
def typeError (value fieldName goType : String) : String :=
  "json: cannot unmarshal " ++ value ++ " into Go struct field Task." ++ fieldName ++
    " of type " ++ goType

/-- Decoding a value into a Go `string` that currently holds `cur`: a JSON
string is stored, `null` has no effect, anything else leaves the string alone
and is a type error (reported by the kind of the value). -/
def literalString (cur : String) : JSON → String × Option String
  | .string s => (s, none)
  | .null => (cur, none)
  | other => (cur, some other.valueName)

/-- The first of two optional errors. -/
def firstError : Option String → Option String → Option String
  | some e, _ => some e
  | none, e => e

/-- Decoding the elements of a JSON array into the slots of a `[]string`:
element `i` is decoded into slot `i` of the backing array (`slots`), a slot
that does not exist yet being fresh, hence empty. Yields the new elements and
the first type error among them. -/
def arrayInto : List String → List JSON → List String × Option String
  | _, [] => ([], none)
  | slots, e :: es =>
    let (s, err) := literalString (slots.headD "") e
    let (rest, err') := arrayInto slots.tail es
    (s :: rest, firstError err err')

/-- The decoder while it fills a `Task`: the target, the slots of the backing
array of `Applications` beyond its length (what earlier members of the same
object left there; the array is reallocated only when it is full, so none of
them is lost), and the first error saved. -/
structure decodeState where
  v : Task
  spare : List String
  savedError : Option String

/-- The method `saveError`: only the first error is kept. -/
def saveError (d : decodeState) (err : Option String) : decodeState :=
  { d with savedError := firstError d.savedError err }

/-- Decoding one object member into the struct. An unknown key is skipped. A
value of the wrong kind leaves its field as it is, saves a type error and the
decoding goes on. For `Applications`: `null` makes the slice nil, `[]` makes it
a fresh empty slice, and a non-empty array is decoded slot by slot over the
backing array and then sets the length. -/
def decodeMember (d : decodeState) (key : String) (val : JSON) : decodeState :=
  match fieldByName key with
  | none => d
  | some .id =>
    let (s, err) := literalString d.v.ID val
    saveError { d with v := { d.v with ID := s } }
      (err.map (fun value => typeError value "id" "string"))
  | some .description =>
    let (s, err) := literalString d.v.Description val
    saveError { d with v := { d.v with Description := s } }
      (err.map (fun value => typeError value "description" "string"))
  | some .note =>
    let (s, err) := literalString d.v.Note val
    saveError { d with v := { d.v with Note := s } }
      (err.map (fun value => typeError value "note" "string"))
  | some .applications =>
    match val with
    | .null => { d with v := { d.v with Applications := none }, spare := [] }
    | .array [] => { d with v := { d.v with Applications := some [] }, spare := [] }
    | .array elems =>
      let backing := d.v.Applications.getD [] ++ d.spare
      let (slots, err) := arrayInto backing elems
      saveError
        { d with v := { d.v with Applications := some slots }, spare := backing.drop elems.length }
        (err.map (fun value => typeError value "applications" "string"))
    | other => saveError d (some (typeError other.valueName "applications" "[]string"))

/-- The call `json.Unmarshal(data, &v)`, as the new value of `v` and the error.
Bytes that are not a JSON text are rejected before anything is stored. A
top-level `null` has no effect and is no error; an object is decoded member by
member, in order; any other value is a type error. -/
def Unmarshal (data : Bytes) (v : Task) : Task × Option String :=
  match data with
  | .invalid err => (v, some err)
  | .valid .null => (v, none)
  | .valid (.object members) =>
    let d := members.foldl (fun d kv => decodeMember d kv.1 kv.2) ⟨v, [], none⟩
    (d.v, d.savedError)
  | .valid other =>
    (v, some ("json: cannot unmarshal " ++ other.valueName ++ " into Go value of type main.Task"))

/-- The JSON value `json.Marshal` produces for a `Task`: the four fields under
their tags, in declaration order; a nil slice is encoded as `null`, a non-nil
one as an array. -/
def Task.toJSON (t : Task) : JSON :=
  .object
    [ ("id", .string t.ID),
      ("description", .string t.Description),
      ("note", .string t.Note),
      ("applications",
        match t.Applications with
        | none => .null
        | some xs => .array (xs.map JSON.string)) ]

/-- Lexicographic order on sequences of runes by code point. -/
def runesLess : List Char → List Char → Bool
  | _, [] => false
  | [], _ :: _ => true
  | a :: as, b :: bs =>
    if a.toNat < b.toNat then true
    else if b.toNat < a.toNat then false
    else runesLess as bs

/-- The order in which `json.Marshal` emits the keys of a map: the order of the
strings as byte sequences, which for UTF-8 is the order by code points. -/
def keyLess (a b : String) : Bool := runesLess a.data b.data

/-- Insertion of a member into a list of members sorted by key. -/
def insertByKey (e : String × JSON) : List (String × JSON) → List (String × JSON)
  | [] => [e]
  | x :: xs => if keyLess e.1 x.1 then e :: x :: xs else x :: insertByKey e xs

/-- Members sorted by key. -/
def sortByKey : List (String × JSON) → List (String × JSON)
  | [] => []
  | e :: es => insertByKey e (sortByKey es)

/-- The JSON value `json.Marshal` produces for a `map[string]Task`: an object
with one member per key, sorted by key. -/
def Store.toJSON (m : Store) : JSON :=
  .object (sortByKey (m.map (fun e => (e.1, e.2.toJSON))))

/-- The call `json.Marshal(task)`: the encoded bytes and the error. Encoding
strings and a slice of strings cannot fail. -/
def MarshalTask (t : Task) : List Chunk × Option String := ([Chunk.json t.toJSON], none)

/-- The call `json.Marshal(tasks)`: the encoded bytes and the error. -/
def MarshalTasks (m : Store) : List Chunk × Option String := ([Chunk.json m.toJSON], none)

/-! ## The handlers -/

/-- The handler `GetTasks`. -/
def GetTasks (tasks : Store) : ResponseWriter :=
  let res := ResponseWriter.new
  match MarshalTasks tasks with
  | (_, some err) => Error res err StatusInternalServerError
  | (jsonSlice, none) =>
    let res := HeaderSet res "Content-Type" "application/json"
    Write res jsonSlice

/-- The handler `PostTask`, as the map it leaves and the response writer. After
a failed `Unmarshal` the handler answers with `http.Error` and, there being no
`return`, goes on to the duplicate check with `newTask` as the decoder left
it. -/
def PostTask (tasks : Store) (body : Body) : Store × ResponseWriter :=
  let res := ResponseWriter.new
  let newTask := Task.zero
  match body with
  | .error err => (tasks, Error res err StatusBadRequest)
  | .ok buf =>
    let (newTask, err) := Unmarshal buf newTask
    let res :=
      match err with
      | some e => Error res e StatusBadRequest
      | none => res
    match mapIndex tasks newTask.ID with
    | some _ => (tasks, Error res "запись с таким id уже есть" StatusBadRequest)
    | none =>
      let tasks := mapAssign tasks newTask.ID newTask
      let res := HeaderSet res "Content-Type" "application/json"
      let res := WriteHeader res StatusCreated
      (tasks, res)

/-- The handler `GetTaskId`; `id` is `chi.URLParam(req, "id")`. -/
def GetTaskId (tasks : Store) (id : String) : ResponseWriter :=
  let res := ResponseWriter.new
  match mapIndex tasks id with
  | none => Error res "задача с данным ID не найдена" StatusBadRequest
  | some task =>
    let (jsonSlice, err) := MarshalTask task
    let res :=
      match err with
      | some e => Error res e StatusBadRequest
      | none => res
    let res := HeaderSet res "Content-Type" "application/json"
    Write res jsonSlice

/-- The handler `DeleteTaskID`; `id` is `chi.URLParam(req, "id")`. -/
def DeleteTaskID (tasks : Store) (id : String) : Store × ResponseWriter :=
  let res := ResponseWriter.new
  match mapIndex tasks id with
  | none => (tasks, Error res "задача с данным ID не найдена" StatusBadRequest)
  | some _ => (mapDelete tasks id, res)

/-! ## The router -/

/-- A request, by the route of `main` it matches. -/
inductive Request where
  | getTasks : Request
  | postTask (body : Body) : Request
  | getTaskId (id : String) : Request
  | deleteTaskID (id : String) : Request

/-- Dispatch of one request: the map afterwards and the response. -/
def serve (tasks : Store) : Request → Store × Response
  | .getTasks => (tasks, finish (GetTasks tasks))
  | .postTask body => ((PostTask tasks body).1, finish (PostTask tasks body).2)
  | .getTaskId id => (tasks, finish (GetTaskId tasks id))
  | .deleteTaskID id => ((DeleteTaskID tasks id).1, finish (DeleteTaskID tasks id).2)

/-- A sequence of requests served one after the other: the map at the end and
the responses in order. -/
def run (tasks : Store) : List Request → Store × List Response
  | [] => (tasks, [])
  | r :: rs =>
    let (tasks', resp) := serve tasks r
    let (tasks'', resps) := run tasks' rs
    (tasks'', resp :: resps)

/-- A request that is not a DELETE and, when it is a POST, has a body that
either cannot be read or parses into a Task without error. -/
def Request.parses : Request → Bool
  | .getTasks => true
  | .getTaskId _ => true
  | .postTask (.error _) => true
  | .postTask (.ok buf) => (Unmarshal buf Task.zero).2.isNone
  | .deleteTaskID _ => false

/-- The number of responses with status 201. -/
def created : List Response → Nat
  | [] => 0
  | r :: rs => (if r.status = StatusCreated then 1 else 0) + created rs

/-- The members of a JSON object (none for any other value). -/
def JSON.members : JSON → List (String × JSON)
  | .object ms => ms
  | _ => []

/-- The value of the first member of a JSON object under a key. -/
def JSON.member? (v : JSON) (key : String) : Option JSON :=
  (v.members.find? (fun kv => decide (kv.1 = key))).map Prod.snd

/-- The object payload has no member whose key decodes into the field. -/
def omits (members : List (String × JSON)) (f : field) : Prop :=
  ∀ kv ∈ members, fieldByName kv.1 ≠ some f

instance (members : List (String × JSON)) (f : field) : Decidable (omits members f) :=
  inferInstanceAs (Decidable (∀ kv ∈ members, fieldByName kv.1 ≠ some f))

/-! ## The map operations -/

theorem mapIndex_eq_none_iff (m : Store) (k : String) :
    mapIndex m k = none ↔ k ∉ Store.keys m := by
  induction m with
  | nil => simp [mapIndex, Store.keys]
  | cons e m ih =>
    obtain ⟨k', v⟩ := e
    by_cases h : k' = k
    · simp [mapIndex, Store.keys, h]
    · have h' : ¬ k = k' := fun c => h c.symm
      simpa [mapIndex, Store.keys, h, h'] using ih

theorem mapIndex_isSome_iff (m : Store) (k : String) :
    (mapIndex m k).isSome ↔ k ∈ Store.keys m := by
  rw [← not_iff_not, ← mapIndex_eq_none_iff]
  cases mapIndex m k <;> simp

theorem mapIndex_mapDelete_self (m : Store) (k : String) : mapIndex (mapDelete m k) k = none := by
  rw [mapIndex_eq_none_iff]
  simp [Store.keys, mapDelete, List.mem_filter]

theorem mapIndex_mapDelete_ne (m : Store) (k k' : String) (h : k' ≠ k) :
    mapIndex (mapDelete m k) k' = mapIndex m k' := by
  induction m with
  | nil => rfl
  | cons e m ih =>
    obtain ⟨k₀, v⟩ := e
    by_cases h₀ : k₀ = k
    · have h₁ : ¬ k₀ = k' := fun c => h (c.symm.trans h₀)
      have : mapDelete ((k₀, v) :: m) k = mapDelete m k := by simp [mapDelete, h₀]
      rw [this, ih]
      simp [mapIndex, h₁]
    · have : mapDelete ((k₀, v) :: m) k = (k₀, v) :: mapDelete m k := by simp [mapDelete, h₀]
      rw [this]
      simp only [mapIndex, ih]

theorem mapDelete_of_not_mem (m : Store) (k : String) (h : k ∉ Store.keys m) :
    mapDelete m k = m := by
  unfold mapDelete
  rw [List.filter_eq_self]
  intro e he
  have : e.1 ≠ k := fun c => h (c ▸ List.mem_map_of_mem Prod.fst he)
  simpa using this

theorem mapIndex_append_single (m : Store) (k k' : String) (v : Task) :
    mapIndex (m ++ [(k, v)]) k' =
      match mapIndex m k' with
      | some t => some t
      | none => if k = k' then some v else none := by
  induction m with
  | nil => simp [mapIndex]
  | cons e m ih =>
    obtain ⟨k₀, v₀⟩ := e
    by_cases h₀ : k₀ = k'
    · simp [mapIndex, h₀]
    · simpa [mapIndex, h₀] using ih

theorem mapIndex_mapAssign_self (m : Store) (k : String) (v : Task) :
    mapIndex (mapAssign m k v) k = some v := by
  unfold mapAssign
  rw [mapIndex_append_single, mapIndex_mapDelete_self]
  simp

theorem mapIndex_mapAssign_ne (m : Store) (k k' : String) (v : Task) (h : k' ≠ k) :
    mapIndex (mapAssign m k v) k' = mapIndex m k' := by
  unfold mapAssign
  rw [mapIndex_append_single, mapIndex_mapDelete_ne m k k' h]
  have h' : ¬ k = k' := fun c => h c.symm
  cases mapIndex m k' <;> simp [h']

theorem mapLen_mapAssign_fresh (m : Store) (k : String) (v : Task) (h : k ∉ Store.keys m) :
    mapLen (mapAssign m k v) = mapLen m + 1 := by
  simp [mapLen, mapAssign, mapDelete_of_not_mem m k h]

theorem keys_mapDelete (m : Store) (k : String) :
    Store.keys (mapDelete m k) = (Store.keys m).filter (fun x => decide (x ≠ k)) := by
  induction m with
  | nil => rfl
  | cons e m ih =>
    obtain ⟨k₀, v⟩ := e
    by_cases h₀ : k₀ = k
    · have : mapDelete ((k₀, v) :: m) k = mapDelete m k := by simp [mapDelete, h₀]
      rw [this, ih]
      simp [Store.keys, h₀]
    · have : mapDelete ((k₀, v) :: m) k = (k₀, v) :: mapDelete m k := by simp [mapDelete, h₀]
      rw [this]
      have ih' := ih
      simp only [Store.keys] at ih' ⊢
      simp [h₀, ih']

theorem WF_mapDelete (m : Store) (k : String) (h : Store.WF m) : Store.WF (mapDelete m k) := by
  have := keys_mapDelete m k
  unfold Store.WF at *
  unfold Store.keys at this
  rw [this]
  exact h.filter _

theorem WF_mapAssign (m : Store) (k : String) (v : Task) (h : Store.WF m) :
    Store.WF (mapAssign m k v) := by
  have hd := WF_mapDelete m k h
  have hk : k ∉ Store.keys (mapDelete m k) := by
    rw [← mapIndex_eq_none_iff]
    exact mapIndex_mapDelete_self m k
  unfold Store.WF mapAssign at *
  unfold Store.keys at hk
  rw [List.map_append, List.nodup_append]
  refine ⟨hd, by simp, ?_⟩
  intro a ha hb
  simp at hb
  subst hb
  exact hk ha

theorem mapLen_mapDelete_mem (m : Store) (k : String) (hwf : Store.WF m)
    (h : k ∈ Store.keys m) : mapLen (mapDelete m k) + 1 = mapLen m := by
  induction m with
  | nil => simp [Store.keys] at h
  | cons e m ih =>
    obtain ⟨k₀, v⟩ := e
    have hwf' : k₀ ∉ Store.keys m ∧ Store.WF m := by
      simpa [Store.WF, Store.keys] using hwf
    by_cases h₀ : k₀ = k
    · have : mapDelete ((k₀, v) :: m) k = mapDelete m k := by simp [mapDelete, h₀]
      rw [this, mapDelete_of_not_mem m k (h₀ ▸ hwf'.1)]
      simp [mapLen]
    · have : mapDelete ((k₀, v) :: m) k = (k₀, v) :: mapDelete m k := by simp [mapDelete, h₀]
      rw [this]
      have hk : k ∈ Store.keys m := by
        have h' : ¬ k = k₀ := fun c => h₀ c.symm
        simpa [Store.keys, h'] using h
      have := ih hwf'.2 hk
      simp only [mapLen, List.length_cons] at this ⊢
      omega

/-! ## The response of `http.Error` on a fresh writer -/

theorem finish_Error_new (msg : String) (code : Nat) :
    finish (Error ResponseWriter.new msg code) =
      ⟨code, [("Content-Type", "text/plain; charset=utf-8"), ("X-Content-Type-Options", "nosniff")],
        [Chunk.text (msg ++ "\n")]⟩ := by
  rfl

/-! ## Create -/

theorem PostTask_parsed_fresh (m : Store) (buf : Bytes) (t : Task)
    (hparse : Unmarshal buf Task.zero = (t, none)) (hfresh : mapIndex m t.ID = none) :
    PostTask m (.ok buf) =
      (mapAssign m t.ID t,
        WriteHeader (HeaderSet ResponseWriter.new "Content-Type" "application/json")
          StatusCreated) := by
  simp only [PostTask, hparse, hfresh]

theorem PostTask_parsed_duplicate (m : Store) (buf : Bytes) (t t' : Task)
    (hparse : Unmarshal buf Task.zero = (t, none)) (hdup : mapIndex m t.ID = some t') :
    PostTask m (.ok buf) =
      (m, Error ResponseWriter.new "запись с таким id уже есть" StatusBadRequest) := by
  simp only [PostTask, hparse, hdup]

theorem PostTask_failed_fresh (m : Store) (buf : Bytes) (t : Task) (e : String)
    (hparse : Unmarshal buf Task.zero = (t, some e)) (hfresh : mapIndex m t.ID = none) :
    PostTask m (.ok buf) =
      (mapAssign m t.ID t,
        WriteHeader (HeaderSet (Error ResponseWriter.new e StatusBadRequest)
          "Content-Type" "application/json") StatusCreated) := by
  simp only [PostTask, hparse, hfresh]

theorem PostTask_failed_duplicate (m : Store) (buf : Bytes) (t t' : Task) (e : String)
    (hparse : Unmarshal buf Task.zero = (t, some e)) (hdup : mapIndex m t.ID = some t') :
    PostTask m (.ok buf) =
      (m, Error (Error ResponseWriter.new e StatusBadRequest)
        "запись с таким id уже есть" StatusBadRequest) := by
  simp only [PostTask, hparse, hdup]

/-- C2. A body that parses to a Task whose id is already a key of the map is
answered with status 400 and the duplicate-id message, and the map is left as
it was. -/
theorem C2_duplicate_create_rejected (m : Store) (buf : Bytes) (t : Task)
    (hparse : Unmarshal buf Task.zero = (t, none)) (hdup : t.ID ∈ Store.keys m) :
    (finish (PostTask m (.ok buf)).2).status = 400 ∧
      (finish (PostTask m (.ok buf)).2).body =
        [Chunk.text ("запись с таким id уже есть" ++ "\n")] ∧
      (PostTask m (.ok buf)).1 = m := by
  obtain ⟨t', ht'⟩ := Option.isSome_iff_exists.mp ((mapIndex_isSome_iff m t.ID).mpr hdup)
  rw [PostTask_parsed_duplicate m buf t t' hparse ht']
  exact ⟨rfl, rfl, rfl⟩

/-- C3. A body that parses without error to a Task `t` whose id is not a key of
the map is answered with status 201, `Content-Type: application/json` and an
empty body; afterwards the map holds `t` under `t.ID`, every other key is as
before, and the map has exactly one entry more. -/
theorem C3_successful_create (m : Store) (buf : Bytes) (t : Task)
    (hparse : Unmarshal buf Task.zero = (t, none)) (hfresh : t.ID ∉ Store.keys m) :
    (finish (PostTask m (.ok buf)).2).status = 201 ∧
      headerGet (finish (PostTask m (.ok buf)).2).header "Content-Type" =
        some "application/json" ∧
      (finish (PostTask m (.ok buf)).2).body = [] ∧
      mapIndex (PostTask m (.ok buf)).1 t.ID = some t ∧
      (∀ k, k ≠ t.ID → mapIndex (PostTask m (.ok buf)).1 k = mapIndex m k) ∧
      (PostTask m (.ok buf)).1 = m ++ [(t.ID, t)] ∧
      mapLen (PostTask m (.ok buf)).1 = mapLen m + 1 := by
  rw [PostTask_parsed_fresh m buf t hparse ((mapIndex_eq_none_iff m t.ID).mpr hfresh)]
  refine ⟨rfl, rfl, rfl, mapIndex_mapAssign_self m t.ID t,
    fun k hk => mapIndex_mapAssign_ne m t.ID k t hk, ?_, mapLen_mapAssign_fresh m t.ID t hfresh⟩
  simp only [mapAssign, mapDelete_of_not_mem m t.ID hfresh]

/-! ## Delete -/

/-- C4. After `DeleteTaskID` on an id that is a key of the map, the id is no
longer a key, and `GetTaskId` on it is answered with status 400 and the
not-found message. -/
theorem C4_delete_then_get (m : Store) (id : String) (hkey : id ∈ Store.keys m) :
    id ∉ Store.keys (DeleteTaskID m id).1 ∧
      (finish (GetTaskId (DeleteTaskID m id).1 id)).status = 400 ∧
      (finish (GetTaskId (DeleteTaskID m id).1 id)).body =
        [Chunk.text ("задача с данным ID не найдена" ++ "\n")] := by
  obtain ⟨t, ht⟩ := Option.isSome_iff_exists.mp ((mapIndex_isSome_iff m id).mpr hkey)
  have hd : (DeleteTaskID m id).1 = mapDelete m id := by simp only [DeleteTaskID, ht]
  have hnone : mapIndex (mapDelete m id) id = none := mapIndex_mapDelete_self m id
  have hget : GetTaskId (mapDelete m id) id =
      Error ResponseWriter.new "задача с данным ID не найдена" StatusBadRequest := by
    simp only [GetTaskId, hnone]
  rw [hd, hget]
  exact ⟨(mapIndex_eq_none_iff _ _).mp hnone, rfl, rfl⟩

/-- C5. `DeleteTaskID` on an id that is not a key of the map is answered with
status 400 and the not-found message, and the map (hence its size) is left as
it was. -/
theorem C5_delete_absent (m : Store) (id : String) (habsent : id ∉ Store.keys m) :
    (finish (DeleteTaskID m id).2).status = 400 ∧
      (finish (DeleteTaskID m id).2).body =
        [Chunk.text ("задача с данным ID не найдена" ++ "\n")] ∧
      (DeleteTaskID m id).1 = m ∧
      mapLen (DeleteTaskID m id).1 = mapLen m := by
  have hnone := (mapIndex_eq_none_iff m id).mpr habsent
  have hd : DeleteTaskID m id =
      (m, Error ResponseWriter.new "задача с данным ID не найдена" StatusBadRequest) := by
    simp only [DeleteTaskID, hnone]
  rw [hd]
  exact ⟨rfl, rfl, rfl, rfl⟩

/-- C10. `DeleteTaskID` on an id that is a key of the map writes neither a
status nor a body, so the response is the default 200 with an empty body; the
map afterwards is the map before without that key: the key is gone, every
other key holds the Task it held, and the size is smaller by exactly one. -/
theorem C10_delete_frame (m : Store) (id : String) (hwf : Store.WF m)
    (hkey : id ∈ Store.keys m) :
    (DeleteTaskID m id).2.wroteHeader = false ∧
      (DeleteTaskID m id).2.body = [] ∧
      (finish (DeleteTaskID m id).2).status = 200 ∧
      (finish (DeleteTaskID m id).2).body = [] ∧
      mapIndex (DeleteTaskID m id).1 id = none ∧
      (∀ k, k ≠ id → mapIndex (DeleteTaskID m id).1 k = mapIndex m k) ∧
      Store.WF (DeleteTaskID m id).1 ∧
      mapLen (DeleteTaskID m id).1 + 1 = mapLen m := by
  obtain ⟨t, ht⟩ := Option.isSome_iff_exists.mp ((mapIndex_isSome_iff m id).mpr hkey)
  have hd : DeleteTaskID m id = (mapDelete m id, ResponseWriter.new) := by
    simp only [DeleteTaskID, ht]
  rw [hd]
  exact ⟨rfl, rfl, rfl, rfl, mapIndex_mapDelete_self m id,
    fun k hk => mapIndex_mapDelete_ne m id k hk, WF_mapDelete m id hwf,
    mapLen_mapDelete_mem m id hwf hkey⟩

/-! ## Decoding -/

theorem arrayInto_strings (apps : List String) :
    arrayInto [] (apps.map JSON.string) = (apps, none) := by
  induction apps with
  | nil => rfl
  | cons a as ih => simp [arrayInto, literalString, firstError, ih]

theorem Unmarshal_toJSON (id desc note : String) (apps : List String) :
    Unmarshal (.valid (Task.mk id desc note (some apps)).toJSON) Task.zero =
      (Task.mk id desc note (some apps), none) := by
  have h1 : fieldByName "id" = some .id := by decide
  have h2 : fieldByName "description" = some .description := by decide
  have h3 : fieldByName "note" = some .note := by decide
  have h4 : fieldByName "applications" = some .applications := by decide
  cases apps with
  | nil =>
    simp [Unmarshal, Task.toJSON, decodeMember, h1, h2, h3, h4, literalString, saveError,
      firstError, Task.zero]
  | cons a as =>
    have h := arrayInto_strings (a :: as)
    simp only [List.map_cons] at h
    simp [Unmarshal, Task.toJSON, decodeMember, h1, h2, h3, h4, literalString, saveError,
      firstError, Task.zero, h]

theorem Unmarshal_not_object (buf : Bytes) (v : Task)
    (h : ∀ members, buf ≠ .valid (.object members)) : (Unmarshal buf v).1 = v := by
  cases buf with
  | invalid e => rfl
  | valid j =>
    cases j with
    | object ms => exact absurd rfl (h ms)
    | null => rfl
    | bool b => rfl
    | number n => rfl
    | string s => rfl
    | array es => rfl

theorem decodeMember_Description (d : decodeState) (key : String) (val : JSON)
    (h : fieldByName key ≠ some .description) :
    (decodeMember d key val).v.Description = d.v.Description := by
  unfold decodeMember
  split
  · rfl
  · rfl
  · next hk => exact absurd hk h
  · rfl
  · split <;> rfl

theorem decodeMember_Note (d : decodeState) (key : String) (val : JSON)
    (h : fieldByName key ≠ some .note) :
    (decodeMember d key val).v.Note = d.v.Note := by
  unfold decodeMember
  split
  · rfl
  · rfl
  · rfl
  · next hk => exact absurd hk h
  · split <;> rfl

theorem decodeMember_Applications (d : decodeState) (key : String) (val : JSON)
    (h : fieldByName key ≠ some .applications) :
    (decodeMember d key val).v.Applications = d.v.Applications := by
  unfold decodeMember
  split
  · rfl
  · rfl
  · rfl
  · rfl
  · next hk => exact absurd hk h

theorem foldl_decodeMember_Description (members : List (String × JSON)) (d : decodeState)
    (h : omits members .description) :
    (members.foldl (fun d kv => decodeMember d kv.1 kv.2) d).v.Description =
      d.v.Description := by
  induction members generalizing d with
  | nil => rfl
  | cons kv ms ih =>
    rw [List.foldl_cons, ih _ (fun x hx => h x (List.mem_cons_of_mem _ hx)),
      decodeMember_Description d kv.1 kv.2 (h kv (List.mem_cons_self _ _))]

theorem foldl_decodeMember_Note (members : List (String × JSON)) (d : decodeState)
    (h : omits members .note) :
    (members.foldl (fun d kv => decodeMember d kv.1 kv.2) d).v.Note = d.v.Note := by
  induction members generalizing d with
  | nil => rfl
  | cons kv ms ih =>
    rw [List.foldl_cons, ih _ (fun x hx => h x (List.mem_cons_of_mem _ hx)),
      decodeMember_Note d kv.1 kv.2 (h kv (List.mem_cons_self _ _))]

theorem foldl_decodeMember_Applications (members : List (String × JSON)) (d : decodeState)
    (h : omits members .applications) :
    (members.foldl (fun d kv => decodeMember d kv.1 kv.2) d).v.Applications =
      d.v.Applications := by
  induction members generalizing d with
  | nil => rfl
  | cons kv ms ih =>
    rw [List.foldl_cons, ih _ (fun x hx => h x (List.mem_cons_of_mem _ hx)),
      decodeMember_Applications d kv.1 kv.2 (h kv (List.mem_cons_self _ _))]

theorem PostTask_stores_decoded (m : Store) (buf : Bytes)
    (hfresh : mapIndex m (Unmarshal buf Task.zero).1.ID = none) :
    (PostTask m (.ok buf)).1 =
      mapAssign m (Unmarshal buf Task.zero).1.ID (Unmarshal buf Task.zero).1 := by
  rcases hu : Unmarshal buf Task.zero with ⟨t, err⟩
  rw [hu] at hfresh
  cases err with
  | none => rw [PostTask_parsed_fresh m buf t hu hfresh]
  | some e => rw [PostTask_failed_fresh m buf t e hu hfresh]

theorem GetTaskId_found (m : Store) (id : String) (t : Task) (h : mapIndex m id = some t) :
    finish (GetTaskId m id) =
      ⟨200, [("Content-Type", "application/json")], [Chunk.json t.toJSON]⟩ := by
  simp only [GetTaskId, h, MarshalTask]
  rfl

/-! ## Round trip -/

/-- C1. For a Task payload `p` (its four fields given, the applications as a
list) whose id is not a key of the map, `PostTask` on the JSON of `p` answers
201 with an empty body, and `GetTaskId` with that id on the resulting map
answers 200 with the same JSON value: the four fields with the same values,
the applications in the same order. -/
theorem C1_post_then_get_round_trip (m : Store) (id desc note : String) (apps : List String)
    (hfresh : id ∉ Store.keys m) :
    (finish (PostTask m (.ok (.valid (Task.mk id desc note (some apps)).toJSON))).2).status = 201 ∧
      (finish (PostTask m (.ok (.valid (Task.mk id desc note (some apps)).toJSON))).2).body = [] ∧
      (finish (GetTaskId
        (PostTask m (.ok (.valid (Task.mk id desc note (some apps)).toJSON))).1 id)).status = 200 ∧
      (finish (GetTaskId
        (PostTask m (.ok (.valid (Task.mk id desc note (some apps)).toJSON))).1 id)).body =
        [Chunk.json (Task.mk id desc note (some apps)).toJSON] := by
  have hparse := Unmarshal_toJSON id desc note apps
  have hnone : mapIndex m (Task.mk id desc note (some apps)).ID = none :=
    (mapIndex_eq_none_iff m id).mpr hfresh
  rw [PostTask_parsed_fresh m _ _ hparse hnone]
  have hget := GetTaskId_found (mapAssign m id (Task.mk id desc note (some apps))) id _
    (mapIndex_mapAssign_self m id _)
  refine ⟨rfl, rfl, ?_, ?_⟩
  · show (finish (GetTaskId (mapAssign m id _) id)).status = 200
    rw [hget]
  · show (finish (GetTaskId (mapAssign m id _) id)).body = _
    rw [hget]

/-! ## Parse failure -/

/-- C8, as the code has it. When `Unmarshal` fails with error text `e` and
leaves `newTask` as `t`, `PostTask` answers 400 with `e` as the first line of
the body and goes on: if `t.ID` is already a key the map is unchanged (and the
duplicate-id message follows in the body), otherwise the map gains exactly the
entry `t.ID -> t`; the status stays 400 either way. `t` is the zero-valued Task
whenever the body is not a JSON object (not JSON at all, or another kind of
value). -/
theorem C8_parse_failure_fallthrough (m : Store) (buf : Bytes) (t : Task) (e : String)
    (hparse : Unmarshal buf Task.zero = (t, some e)) :
    (finish (PostTask m (.ok buf)).2).status = 400 ∧
      (finish (PostTask m (.ok buf)).2).body.head? = some (Chunk.text (e ++ "\n")) ∧
      (t.ID ∈ Store.keys m →
        (PostTask m (.ok buf)).1 = m ∧
        (finish (PostTask m (.ok buf)).2).body =
          [Chunk.text (e ++ "\n"), Chunk.text ("запись с таким id уже есть" ++ "\n")]) ∧
      (t.ID ∉ Store.keys m →
        (PostTask m (.ok buf)).1 = m ++ [(t.ID, t)] ∧
        mapIndex (PostTask m (.ok buf)).1 t.ID = some t ∧
        (∀ k, k ≠ t.ID → mapIndex (PostTask m (.ok buf)).1 k = mapIndex m k) ∧
        (finish (PostTask m (.ok buf)).2).body = [Chunk.text (e ++ "\n")]) ∧
      ((∀ members, buf ≠ .valid (.object members)) → t = Task.zero) := by
  have hzero : (∀ members, buf ≠ .valid (.object members)) → t = Task.zero := by
    intro h
    have := Unmarshal_not_object buf Task.zero h
    rw [hparse] at this
    exact this
  by_cases hk : t.ID ∈ Store.keys m
  · obtain ⟨t', ht'⟩ := Option.isSome_iff_exists.mp ((mapIndex_isSome_iff m t.ID).mpr hk)
    rw [PostTask_failed_duplicate m buf t t' e hparse ht']
    exact ⟨rfl, rfl, fun _ => ⟨rfl, rfl⟩, fun h => absurd hk h, hzero⟩
  · rw [PostTask_failed_fresh m buf t e hparse ((mapIndex_eq_none_iff m t.ID).mpr hk)]
    refine ⟨rfl, rfl, fun h => absurd h hk, fun _ => ⟨?_, mapIndex_mapAssign_self m t.ID t,
      fun k hne => mapIndex_mapAssign_ne m t.ID k t hne, rfl⟩, hzero⟩
    simp only [mapAssign, mapDelete_of_not_mem m t.ID hk]

/-- C8 as stated fails: the body `{"id":"5","description":7}` does not parse
into a Task (a number meets the string field `description`), the empty string
is not a key of the seed map, the answer is 400, and yet the map does not gain
the entry `"" -> zero Task`: the decoder had stored the id before it met the
error, and the entry gained is `"5" -> Task{ID: "5"}`. -/
theorem C8_counterexample :
    Unmarshal (.valid (.object [("id", .string "5"), ("description", .number "7")])) Task.zero =
        (Task.mk "5" "" "" none,
          some "json: cannot unmarshal number into Go struct field Task.description of type string") ∧
      "" ∉ Store.keys tasks ∧
      (finish (PostTask tasks
        (.ok (.valid (.object [("id", .string "5"), ("description", .number "7")])))).2).status
        = 400 ∧
      (PostTask tasks
        (.ok (.valid (.object [("id", .string "5"), ("description", .number "7")])))).1
        = tasks ++ [("5", Task.mk "5" "" "" none)] ∧
      (PostTask tasks
        (.ok (.valid (.object [("id", .string "5"), ("description", .number "7")])))).1
        ≠ tasks ++ [("", Task.zero)] := by
  refine ⟨by decide, by decide, by decide, by decide, by decide⟩

/-! ## Absent fields -/

/-- C9, as the code has it. For an object payload that decodes to `t` (with or
without a type error) and whose id is not a key of the map, `PostTask` stores
`t` under `t.ID`; a string field without a member in the payload is the empty
string in `t`, and `Applications` without a member is the nil slice; `GetTaskId`
on that id answers 200 with the JSON of `t`, in which an omitted string is `""`
and omitted applications are `null`. -/
theorem C9_absent_fields_default (m : Store) (members : List (String × JSON)) (t : Task)
    (err : Option String)
    (hparse : Unmarshal (.valid (.object members)) Task.zero = (t, err))
    (hfresh : t.ID ∉ Store.keys m) :
    mapIndex (PostTask m (.ok (.valid (.object members)))).1 t.ID = some t ∧
      (omits members .description → t.Description = "") ∧
      (omits members .note → t.Note = "") ∧
      (omits members .applications → t.Applications = none) ∧
      (finish (GetTaskId (PostTask m (.ok (.valid (.object members)))).1 t.ID)).status = 200 ∧
      (finish (GetTaskId (PostTask m (.ok (.valid (.object members)))).1 t.ID)).body =
        [Chunk.json t.toJSON] ∧
      (omits members .description → t.toJSON.member? "description" = some (.string "")) ∧
      (omits members .note → t.toJSON.member? "note" = some (.string "")) ∧
      (omits members .applications → t.toJSON.member? "applications" = some .null) := by
  have hnone : mapIndex m (Unmarshal (.valid (.object members)) Task.zero).1.ID = none := by
    rw [hparse]
    exact (mapIndex_eq_none_iff m t.ID).mpr hfresh
  have hstore := PostTask_stores_decoded m (.valid (.object members)) hnone
  rw [hparse] at hstore
  have ht : t = (members.foldl (fun d kv => decodeMember d kv.1 kv.2)
      ⟨Task.zero, [], none⟩).v := by
    have := congrArg Prod.fst hparse
    simpa [Unmarshal] using this.symm
  have hd : omits members .description → t.Description = "" := fun h => by
    rw [ht, foldl_decodeMember_Description members _ h]
    rfl
  have hn : omits members .note → t.Note = "" := fun h => by
    rw [ht, foldl_decodeMember_Note members _ h]
    rfl
  have ha : omits members .applications → t.Applications = none := fun h => by
    rw [ht, foldl_decodeMember_Applications members _ h]
    rfl
  have hget := GetTaskId_found (mapAssign m t.ID t) t.ID t (mapIndex_mapAssign_self m t.ID t)
  rw [hstore, hget]
  refine ⟨mapIndex_mapAssign_self m t.ID t, hd, hn, ha, rfl, rfl, ?_, ?_, ?_⟩
  · intro h
    simp [JSON.member?, JSON.members, Task.toJSON, hd h]
  · intro h
    simp [JSON.member?, JSON.members, Task.toJSON, hn h]
  · intro h
    simp [JSON.member?, JSON.members, Task.toJSON, ha h]

/-- C9 as stated fails: the payload `{"id":"3"}` has no `applications` member,
`"3"` is not a key of the seed map, and `GetTaskId` on `"3"` after the
`PostTask` serialises `applications` as `null`, not as the empty array. -/
theorem C9_counterexample :
    omits [("id", JSON.string "3")] .applications ∧
      "3" ∉ Store.keys tasks ∧
      (finish (GetTaskId (PostTask tasks (.ok (.valid (.object [("id", .string "3")])))).1
        "3")).body =
        [Chunk.json (.object [("id", .string "3"), ("description", .string ""),
          ("note", .string ""), ("applications", .null)])] ∧
      (finish (GetTaskId (PostTask tasks (.ok (.valid (.object [("id", .string "3")])))).1
        "3")).body ≠
        [Chunk.json (.object [("id", .string "3"), ("description", .string ""),
          ("note", .string ""), ("applications", .array [])])] := by
  have hb : (finish (GetTaskId (PostTask tasks (.ok (.valid (.object [("id", .string "3")])))).1
        "3")).body =
        [Chunk.json (.object [("id", .string "3"), ("description", .string ""),
          ("note", .string ""), ("applications", .null)])] := by rfl
  refine ⟨by decide, by decide, hb, ?_⟩
  rw [hb]
  simp

/-! ## Reachable maps -/

theorem keyed_mapDelete (m : Store) (k : String) (h : Store.keyed m) :
    Store.keyed (mapDelete m k) := by
  intro e he
  exact h e (List.mem_of_mem_filter he)

theorem keyed_mapAssign (m : Store) (t : Task) (h : Store.keyed m) :
    Store.keyed (mapAssign m t.ID t) := by
  intro e he
  rcases List.mem_append.mp he with h' | h'
  · exact keyed_mapDelete m t.ID h e h'
  · rw [List.mem_singleton.mp h']

theorem PostTask_store (m : Store) (body : Body) :
    (PostTask m body).1 = m ∨ ∃ t : Task, (PostTask m body).1 = mapAssign m t.ID t := by
  cases body with
  | error e => exact Or.inl rfl
  | ok buf =>
    rcases hu : Unmarshal buf Task.zero with ⟨t, err⟩
    cases hi : mapIndex m t.ID with
    | some t' =>
      left
      cases err with
      | none => rw [PostTask_parsed_duplicate m buf t t' hu hi]
      | some e => rw [PostTask_failed_duplicate m buf t t' e hu hi]
    | none =>
      right
      refine ⟨t, ?_⟩
      cases err with
      | none => rw [PostTask_parsed_fresh m buf t hu hi]
      | some e => rw [PostTask_failed_fresh m buf t e hu hi]

theorem DeleteTaskID_store (m : Store) (id : String) :
    (DeleteTaskID m id).1 = m ∨ (DeleteTaskID m id).1 = mapDelete m id := by
  cases hi : mapIndex m id with
  | none => left; simp only [DeleteTaskID, hi]
  | some t => right; simp only [DeleteTaskID, hi]

theorem serve_invariant (m : Store) (r : Request) (h : Store.WF m ∧ Store.keyed m) :
    Store.WF (serve m r).1 ∧ Store.keyed (serve m r).1 := by
  cases r with
  | getTasks => exact h
  | getTaskId id => exact h
  | postTask body =>
    show Store.WF (PostTask m body).1 ∧ Store.keyed (PostTask m body).1
    rcases PostTask_store m body with hs | ⟨t, hs⟩
    · rw [hs]; exact h
    · rw [hs]; exact ⟨WF_mapAssign m t.ID t h.1, keyed_mapAssign m t h.2⟩
  | deleteTaskID id =>
    show Store.WF (DeleteTaskID m id).1 ∧ Store.keyed (DeleteTaskID m id).1
    rcases DeleteTaskID_store m id with hs | hs
    · rw [hs]; exact h
    · rw [hs]; exact ⟨WF_mapDelete m id h.1, keyed_mapDelete m id h.2⟩

theorem run_cons (m : Store) (r : Request) (rs : List Request) :
    run m (r :: rs) =
      ((run (serve m r).1 rs).1, (serve m r).2 :: (run (serve m r).1 rs).2) := rfl

theorem run_invariant (rs : List Request) (m : Store) (h : Store.WF m ∧ Store.keyed m) :
    Store.WF (run m rs).1 ∧ Store.keyed (run m rs).1 := by
  induction rs generalizing m with
  | nil => exact h
  | cons r rs ih =>
    have := ih (serve m r).1 (serve_invariant m r h)
    simpa only [run] using this

theorem tasks_invariant : Store.WF tasks ∧ Store.keyed tasks := by
  constructor
  · decide
  · intro e he
    simp only [tasks, List.mem_cons, List.mem_singleton, List.not_mem_nil, or_false] at he
    rcases he with rfl | rfl <;> rfl

/-- C7. In every map reached from the seed map by a finite sequence of calls to
the four handlers, with arbitrary bodies and ids, every entry's key is the id
of the Task stored under it, every key occurs once, and so no two Task records
of the map share an id. -/
theorem C7_store_invariant (rs : List Request) :
    (∀ k t, (k, t) ∈ (run tasks rs).1 → k = t.ID) ∧
      Store.WF (run tasks rs).1 ∧
      ((run tasks rs).1.map (fun e => e.2.ID)).Nodup := by
  have h := run_invariant rs tasks tasks_invariant
  refine ⟨fun k t hkt => h.2 (k, t) hkt, h.1, ?_⟩
  have hmap : (run tasks rs).1.map (fun e => e.2.ID) = (run tasks rs).1.map Prod.fst :=
    List.map_congr_left (fun e he => (h.2 e he).symm)
  rw [hmap]
  exact h.1

/-! ## Entry count -/

theorem length_insertByKey (e : String × JSON) (l : List (String × JSON)) :
    (insertByKey e l).length = l.length + 1 := by
  induction l with
  | nil => rfl
  | cons x xs ih =>
    unfold insertByKey
    split
    · rfl
    · simp [ih]

theorem length_sortByKey (l : List (String × JSON)) : (sortByKey l).length = l.length := by
  induction l with
  | nil => rfl
  | cons e es ih => simp [sortByKey, length_insertByKey, ih]

/-- The object `GetTasks` sends has one member per entry of the map. -/
theorem GetTasks_entries (m : Store) :
    (finish (GetTasks m)).status = 200 ∧
      (finish (GetTasks m)).body = [Chunk.json (Store.toJSON m)] ∧
      (Store.toJSON m).members.length = mapLen m := by
  refine ⟨rfl, rfl, ?_⟩
  simp [Store.toJSON, JSON.members, length_sortByKey, mapLen]

theorem serve_parses_count (m : Store) (r : Request) (h : r.parses) :
    mapLen (serve m r).1 = mapLen m + created [(serve m r).2] := by
  cases r with
  | getTasks => rfl
  | getTaskId id =>
    cases hi : mapIndex m id with
    | none =>
      have : GetTaskId m id =
          Error ResponseWriter.new "задача с данным ID не найдена" StatusBadRequest := by
        simp only [GetTaskId, hi]
      simp only [serve, this]
      rfl
    | some t =>
      simp only [serve, GetTaskId_found m id t hi]
      rfl
  | deleteTaskID id => exact absurd h (by simp [Request.parses])
  | postTask body =>
    cases body with
    | error e => rfl
    | ok buf =>
      rcases hu : Unmarshal buf Task.zero with ⟨t, err⟩
      have herr : err = none := by
        have : (Unmarshal buf Task.zero).2.isNone = true := h
        rw [hu] at this
        exact Option.isNone_iff_eq_none.mp this
      subst herr
      cases hi : mapIndex m t.ID with
      | some t' =>
        simp only [serve, PostTask_parsed_duplicate m buf t t' hu hi]
        rfl
      | none =>
        simp only [serve, PostTask_parsed_fresh m buf t hu hi]
        rw [mapLen_mapAssign_fresh m t.ID t ((mapIndex_eq_none_iff m t.ID).mp hi)]
        rfl

/-- Off the parse-failure path the count is as intended: over any sequence of
GET and POST requests whose bodies parse, the map grows by exactly the number
of responses with status 201. -/
theorem run_parses_count (rs : List Request) (m : Store) (h : ∀ r ∈ rs, r.parses) :
    mapLen (run m rs).1 = mapLen m + created (run m rs).2 := by
  induction rs generalizing m with
  | nil => rfl
  | cons r rs ih =>
    have h1 := serve_parses_count m r (h r (List.mem_cons_self _ _))
    have h2 := ih (serve m r).1 (fun x hx => h x (List.mem_cons_of_mem _ hx))
    rw [run_cons]
    simp only [created] at h1 h2 ⊢
    omega

/-- C6 on the code. On a fresh server `GetTasks` answers 200 with an object of
exactly the two seeded members `"1"` and `"2"`. After one `PostTask` whose body
is not JSON, which is answered 400 (so no request was answered 201), `GetTasks`
answers 200 with an object of three members: the handler went on after the
parse error and stored the zero-valued Task under the empty key. -/
theorem C6_entry_count_failing_input :
    (finish (GetTasks tasks)).status = 200 ∧
      (finish (GetTasks tasks)).body =
        [Chunk.json (.object
          [ ("1", (Task.mk "1" "Сделать финальное задание темы REST API"
              "Если сегодня сделаю, то завтра будет свободный день. Ура!"
              (some ["VS Code", "Terminal", "git"])).toJSON),
            ("2", (Task.mk "2" "Протестировать финальное задание с помощью Postmen"
              "Лучше это делать в процессе разработки, каждый раз, когда запускаешь сервер и проверяешь хендлер"
              (some ["VS Code", "Terminal", "git", "Postman"])).toJSON) ])] ∧
      (run tasks [.postTask (.ok (.invalid "unexpected end of JSON input"))]).2.map
        Response.status = [400] ∧
      (finish (GetTasks
        (run tasks [.postTask (.ok (.invalid "unexpected end of JSON input"))]).1)).status
        = 200 ∧
      (finish (GetTasks
        (run tasks [.postTask (.ok (.invalid "unexpected end of JSON input"))]).1)).body =
        [Chunk.json (Store.toJSON
          (run tasks [.postTask (.ok (.invalid "unexpected end of JSON input"))]).1)] ∧
      (Store.toJSON
        (run tasks [.postTask (.ok (.invalid "unexpected end of JSON input"))]).1).members.map
        Prod.fst = ["", "1", "2"] ∧
      (Store.toJSON
        (run tasks [.postTask (.ok (.invalid "unexpected end of JSON input"))]).1).members.length
        = 3 := by
  refine ⟨by decide, by rfl, by decide, by decide, by rfl, by decide, by decide⟩

/-! ## The scenarios of the specification -/

/-- C1 on the seed map: `POST {"id":"3","description":"x","note":"y","applications":["A"]}`
answers 201 with an empty body, and `GET /tasks/3` then answers 200 with
exactly that JSON value. -/
theorem C1_post_then_get_round_trip_witness :
    "3" ∉ Store.keys tasks ∧
      (finish (PostTask tasks (.ok (.valid (.object
        [("id", .string "3"), ("description", .string "x"), ("note", .string "y"),
          ("applications", .array [.string "A"])])))).2).status = 201 ∧
      (finish (PostTask tasks (.ok (.valid (.object
        [("id", .string "3"), ("description", .string "x"), ("note", .string "y"),
          ("applications", .array [.string "A"])])))).2).body = [] ∧
      (finish (GetTaskId (PostTask tasks (.ok (.valid (.object
        [("id", .string "3"), ("description", .string "x"), ("note", .string "y"),
          ("applications", .array [.string "A"])])))).1 "3")).status = 200 ∧
      (finish (GetTaskId (PostTask tasks (.ok (.valid (.object
        [("id", .string "3"), ("description", .string "x"), ("note", .string "y"),
          ("applications", .array [.string "A"])])))).1 "3")).body =
        [Chunk.json (.object
          [("id", .string "3"), ("description", .string "x"), ("note", .string "y"),
            ("applications", .array [.string "A"])])] :=
  ⟨by decide, C1_post_then_get_round_trip tasks "3" "x" "y" ["A"] (by decide)⟩

/-- C2 on the seed map: a `POST` with `"id":"1"` answers 400 with the
duplicate-id message and leaves the map alone, so key `"1"` still holds the
seeded Task. -/
theorem C2_duplicate_create_rejected_witness :
    Unmarshal (.valid (.object [("id", .string "1")])) Task.zero =
        (Task.mk "1" "" "" none, none) ∧
      "1" ∈ Store.keys tasks ∧
      (finish (PostTask tasks (.ok (.valid (.object [("id", .string "1")])))).2).status = 400 ∧
      (finish (PostTask tasks (.ok (.valid (.object [("id", .string "1")])))).2).body =
        [Chunk.text ("запись с таким id уже есть" ++ "\n")] ∧
      (PostTask tasks (.ok (.valid (.object [("id", .string "1")])))).1 = tasks :=
  ⟨by decide, by decide,
    C2_duplicate_create_rejected tasks (.valid (.object [("id", .string "1")]))
      (Task.mk "1" "" "" none) (by decide) (by decide)⟩

/-- C3 on the seed map with the payload `{"id":"3","note":"n"}`: status 201 and
the map has three entries, the new one under `"3"`. -/
theorem C3_successful_create_witness :
    Unmarshal (.valid (.object [("id", .string "3"), ("note", .string "n")])) Task.zero =
        (Task.mk "3" "" "n" none, none) ∧
      "3" ∉ Store.keys tasks ∧
      (finish (PostTask tasks
        (.ok (.valid (.object [("id", .string "3"), ("note", .string "n")])))).2).status = 201 ∧
      mapIndex (PostTask tasks
        (.ok (.valid (.object [("id", .string "3"), ("note", .string "n")])))).1 "3" =
        some (Task.mk "3" "" "n" none) ∧
      mapLen (PostTask tasks
        (.ok (.valid (.object [("id", .string "3"), ("note", .string "n")])))).1 = 3 :=
  have h := C3_successful_create tasks
    (.valid (.object [("id", .string "3"), ("note", .string "n")]))
    (Task.mk "3" "" "n" none) (by decide) (by decide)
  ⟨by decide, by decide, h.1, h.2.2.2.1, h.2.2.2.2.2.2⟩

/-- C4 on the seed map: after `DELETE /tasks/1`, `GET /tasks/1` answers 400
with the not-found message. -/
theorem C4_delete_then_get_witness :
    "1" ∈ Store.keys tasks ∧
      "1" ∉ Store.keys (DeleteTaskID tasks "1").1 ∧
      (finish (GetTaskId (DeleteTaskID tasks "1").1 "1")).status = 400 ∧
      (finish (GetTaskId (DeleteTaskID tasks "1").1 "1")).body =
        [Chunk.text ("задача с данным ID не найдена" ++ "\n")] :=
  ⟨by decide, C4_delete_then_get tasks "1" (by decide)⟩

/-- C5 on the seed map: `DELETE /tasks/7` answers 400 and the map keeps its two
entries. -/
theorem C5_delete_absent_witness :
    "7" ∉ Store.keys tasks ∧
      (finish (DeleteTaskID tasks "7").2).status = 400 ∧
      (finish (DeleteTaskID tasks "7").2).body =
        [Chunk.text ("задача с данным ID не найдена" ++ "\n")] ∧
      (DeleteTaskID tasks "7").1 = tasks ∧
      mapLen (DeleteTaskID tasks "7").1 = mapLen tasks :=
  ⟨by decide, C5_delete_absent tasks "7" (by decide)⟩

/-- C8 on the seed map with a body that is not JSON: the answer is 400 with the
syntax error, and the zero-valued Task is stored under the empty key. -/
theorem C8_parse_failure_fallthrough_witness :
    Unmarshal (.invalid "unexpected end of JSON input") Task.zero =
        (Task.zero, some "unexpected end of JSON input") ∧
      (finish (PostTask tasks (.ok (.invalid "unexpected end of JSON input"))).2).status
        = 400 ∧
      (finish (PostTask tasks (.ok (.invalid "unexpected end of JSON input"))).2).body.head? =
        some (Chunk.text ("unexpected end of JSON input" ++ "\n")) ∧
      (PostTask tasks (.ok (.invalid "unexpected end of JSON input"))).1 =
        tasks ++ [("", Task.zero)] :=
  have h := C8_parse_failure_fallthrough tasks (.invalid "unexpected end of JSON input")
    Task.zero "unexpected end of JSON input" (by decide)
  ⟨by decide, h.1, h.2.1, (h.2.2.2.1 (by decide)).1⟩

/-- C9 on the seed map with the payload `{"id":"3"}`: the Task stored under
`"3"` has empty description and note and nil applications, and its JSON has
`""`, `""` and `null` for them. -/
theorem C9_absent_fields_default_witness :
    Unmarshal (.valid (.object [("id", .string "3")])) Task.zero =
        (Task.mk "3" "" "" none, none) ∧
      "3" ∉ Store.keys tasks ∧
      mapIndex (PostTask tasks (.ok (.valid (.object [("id", .string "3")])))).1 "3" =
        some (Task.mk "3" "" "" none) ∧
      (finish (GetTaskId (PostTask tasks (.ok (.valid (.object [("id", .string "3")])))).1
        "3")).body =
        [Chunk.json (.object [("id", .string "3"), ("description", .string ""),
          ("note", .string ""), ("applications", .null)])] :=
  have h := C9_absent_fields_default tasks [("id", .string "3")] (Task.mk "3" "" "" none) none
    (by decide) (by decide)
  ⟨by decide, by decide, h.1, h.2.2.2.2.2.1⟩

/-- C10 on the seed map: `DELETE /tasks/2` writes nothing, the answer is 200,
and the map keeps exactly the entry under `"1"`. -/
theorem C10_delete_frame_witness :
    Store.WF tasks ∧ "2" ∈ Store.keys tasks ∧
      (DeleteTaskID tasks "2").2.wroteHeader = false ∧
      (finish (DeleteTaskID tasks "2").2).status = 200 ∧
      (finish (DeleteTaskID tasks "2").2).body = [] ∧
      mapIndex (DeleteTaskID tasks "2").1 "2" = none ∧
      mapIndex (DeleteTaskID tasks "2").1 "1" = mapIndex tasks "1" ∧
      mapLen (DeleteTaskID tasks "2").1 + 1 = mapLen tasks :=
  have hwf : Store.WF tasks := by decide
  have h := C10_delete_frame tasks "2" hwf (by decide)
  ⟨hwf, by decide, h.1, h.2.2.1, h.2.2.2.1, h.2.2.2.2.1, h.2.2.2.2.2.1 "1" (by decide),
    h.2.2.2.2.2.2.2⟩

end ToDoREST
